import Mathlib

/-!
Shallow embedding of the derivation logic of the `vite-admin-panel` repository
(`src/src/features/PortfolioAnalyzer.tsx`, `src/src/features/TradePanel.tsx`,
`src/src/App.tsx`).  JavaScript numbers that flow through `typeof x === 'number'`
and `isFinite` checks are modelled by `JSNum` (a finite rational, NaN, or a
signed infinity); `null`/`undefined` inputs are modelled by `Option`.
All monetary arithmetic is modelled over `ℚ`.
-/

/-- A JavaScript number: a finite value, NaN, or a signed infinity. -/
inductive JSNum where
  | num (q : ℚ)
  | nan
  | posInf
  | negInf
deriving DecidableEq, Repr

/-- JS `isFinite(x)`: true only on finite numbers (false on NaN and infinities). -/
def JSNum.isFinite : JSNum → Bool
  | num _ => true
  | _ => false

/-- JS `<` on numbers: any comparison involving NaN is false. -/
def jsLt : JSNum → JSNum → Bool
  | .nan, _ => false
  | _, .nan => false
  | .num a, .num b => decide (a < b)
  | .num _, .posInf => true
  | .num _, .negInf => false
  | .posInf, _ => false
  | .negInf, .negInf => false
  | .negInf, _ => true

/-- JS `<=` on numbers: any comparison involving NaN is false. -/
def jsLe : JSNum → JSNum → Bool
  | .nan, _ => false
  | _, .nan => false
  | .num a, .num b => decide (a ≤ b)
  | .num _, .posInf => true
  | .num _, .negInf => false
  | .posInf, .posInf => true
  | .posInf, _ => false
  | .negInf, _ => true

/-- JS `a > b` is `b < a` (false whenever NaN is involved). -/
def jsGt (a b : JSNum) : Bool := jsLt b a

/-- JS `a >= b` is `b <= a` (false whenever NaN is involved). -/
def jsGe (a b : JSNum) : Bool := jsLe b a

/-- The externally computed dex risk label (`DexRisk.label` in the source). -/
inductive DexLabel where
  | safe
  | caution
  | danger
  | unknown
deriving DecidableEq, Repr

/-- The three-tier verdict label of the health scorer. -/
inductive VerdictLabel where
  | SAFE
  | RISKY
  | UNSAFE
deriving DecidableEq, Repr

/-- `HealthVerdict` from `PortfolioAnalyzer.tsx`. -/
structure HealthVerdict where
  label : VerdictLabel
  reasons : List String
deriving DecidableEq, Repr

/-- The parameter record of `computeHealthVerdict` (all fields nullable). -/
structure HealthParams where
  volToMc : Option JSNum
  lpLockedPct : Option JSNum
  tx24 : Option JSNum
  priceCh24 : Option JSNum
  dexLabel : Option DexLabel
  ageMin : Option JSNum
  marketCap : Option JSNum

/-- volToMc rule of `computeHealthVerdict`:
`if (typeof volToMc === 'number' && isFinite(volToMc)) { >=1 → +20; >=0.2 → +5; else −20 }`. -/
def volRule : Option JSNum → ℤ × List String
  | some v =>
    if v.isFinite then
      if jsGe v (.num 1) then (20, ["volume/mc strong"])
      else if jsGe v (.num (1/5)) then (5, ["volume/mc moderate"])
      else (-20, ["volume/mc weak"])
    else (0, [])
  | none => (0, [])

/-- lpLockedPct rule: `if (typeof lpLockedPct === 'number') { >=75 → +15; <25 → −15 }`.
Note the source checks only `typeof`, not `isFinite`, on this field. -/
def lpRule : Option JSNum → ℤ × List String
  | some v =>
    if jsGe v (.num 75) then (15, ["LP locked high"])
    else if jsLt v (.num 25) then (-15, ["LP lock low"])
    else (0, [])
  | none => (0, [])

/-- tx24 rule: `if (typeof tx24 === 'number' && isFinite(tx24)) { >=1000 → +5; <50 → −5 }`. -/
def txRule : Option JSNum → ℤ × List String
  | some v =>
    if v.isFinite then
      if jsGe v (.num 1000) then (5, ["tx active"])
      else if jsLt v (.num 50) then (-5, ["tx low"])
      else (0, [])
    else (0, [])
  | none => (0, [])

/-- priceCh24 rule: two independent ifs, `>400 → −10` and `< -60 → −10`,
guarded by `typeof priceCh24 === 'number' && isFinite(priceCh24)`. -/
def priceChRule : Option JSNum → ℤ × List String
  | some v =>
    if v.isFinite then
      ((if jsGt v (.num 400) then -10 else 0) + (if jsLt v (.num (-60)) then -10 else 0),
       (if jsGt v (.num 400) then ["extreme pump"] else []) ++
       (if jsLt v (.num (-60)) then ["dumping"] else []))
    else (0, [])
  | none => (0, [])

/-- dexLabel rule: `if (dexLabel === 'safe') +5; if (dexLabel === 'danger') −10`. -/
def dexRule (l : Option DexLabel) : ℤ × List String :=
  ((if l = some .safe then 5 else 0) + (if l = some .danger then -10 else 0),
   (if l = some .safe then ["dex risk: safe"] else []) ++
   (if l = some .danger then ["dex risk: danger"] else []))

/-- Compound rule:
`if (typeof ageMin === 'number' && ageMin > 50 && typeof marketCap === 'number'
&& isFinite(marketCap) && marketCap < 20_000) { score -= 10; ... }`.
The source checks `isFinite` on `marketCap` but not on `ageMin`. -/
def ageMcRule (a mc : Option JSNum) : ℤ × List String :=
  match a with
  | some av =>
    if jsGt av (.num 50) then
      match mc with
      | some mv =>
        if mv.isFinite && jsLt mv (.num 20000) then (-10, ["age>50m & mc<20k"])
        else (0, [])
      | none => (0, [])
    else (0, [])
  | none => (0, [])

/-- The score/reasons accumulation of `computeHealthVerdict`: the source starts
at `score = 50` and applies the six rules in order, each rule touching a
disjoint subset of the parameters, appending its reasons in evaluation order. -/
def healthScoreReasons (p : HealthParams) : ℤ × List String :=
  let a := volRule p.volToMc
  let b := lpRule p.lpLockedPct
  let c := txRule p.tx24
  let d := priceChRule p.priceCh24
  let e := dexRule p.dexLabel
  let f := ageMcRule p.ageMin p.marketCap
  (50 + a.1 + b.1 + c.1 + d.1 + e.1 + f.1,
   a.2 ++ b.2 ++ c.2 ++ d.2 ++ e.2 ++ f.2)

/-- `computeHealthVerdict` (`PortfolioAnalyzer.tsx`): label starts at RISKY,
becomes SAFE when `score >= 70`, else UNSAFE when `score <= 40`. -/
def computeHealthVerdict (p : HealthParams) : HealthVerdict :=
  let sr := healthScoreReasons p
  { label := if 70 ≤ sr.1 then .SAFE else if sr.1 ≤ 40 then .UNSAFE else .RISKY
    reasons := sr.2 }

/-- The score contributed by every rule except the compound age/market-cap rule. -/
def preAgeScore (p : HealthParams) : ℤ :=
  50 + (volRule p.volToMc).1 + (lpRule p.lpLockedPct).1 + (txRule p.tx24).1 +
    (priceChRule p.priceCh24).1 + (dexRule p.dexLabel).1

/-- Input of the spec example: volToMc=0.1, lpLockedPct=10, tx24=10,
priceCh24=500, riskLabel=danger, ageMin=60, marketCap=10000. -/
def exampleParams : HealthParams :=
  { volToMc := some (.num (1/10))
    lpLockedPct := some (.num 10)
    tx24 := some (.num 10)
    priceCh24 := some (.num 500)
    dexLabel := some .danger
    ageMin := some (.num 60)
    marketCap := some (.num 10000) }

/-- Counterexample input for the compound rule: `ageMin = +Infinity` (a number
that is not finite) together with a finite small market cap. -/
def infAgeParams : HealthParams :=
  { volToMc := none
    lpLockedPct := none
    tx24 := none
    priceCh24 := none
    dexLabel := none
    ageMin := some .posInf
    marketCap := some (.num 10000) }

/-- The trigger condition of the compound rule as the source implements it:
`ageMin` present with `ageMin > 50` under JS comparison (its finiteness is not
checked, so `+Infinity` qualifies) and `marketCap` present, finite, `< 20000`. -/
def ageRuleTriggered (p : HealthParams) : Prop :=
  (∃ av, p.ageMin = some av ∧ jsGt av (.num 50) = true) ∧
  (∃ q, p.marketCap = some (.num q) ∧ q < 20000)

/-- Witness input for the compound rule: finite age 60 and market cap 10000. -/
def wAgeParams : HealthParams :=
  { volToMc := none, lpLockedPct := none, tx24 := none, priceCh24 := none,
    dexLabel := none, ageMin := some (.num 60), marketCap := some (.num 10000) }

/-- The `token` slice of the RugCheck report read by the supply derivation
(`RugToken` in the source): a raw supply and a decimals count, both of which
may be absent or non-finite at runtime. -/
structure RugToken where
  supply : Option JSNum
  decimals : Option ℕ

/-- The part of the RugCheck report the supply derivation reads: the report
may be absent (`report?.token` guards both the report and its token). -/
structure RugReport where
  token : Option RugToken

/-- The `supply` memo of `MemeScanner` (`PortfolioAnalyzer.tsx`):
`if (!report?.token) return 999_999_999`; otherwise
`computed = Number.isFinite(raw) ? raw / 10^(decimals ?? 0) : null` and
`computed != null && isFinite(computed) && computed > 0 ? computed : 1_000_000_000`.
Over `ℚ` a finite raw supply divided by `10^d` is always finite. -/
def supplyOf (report : Option RugReport) : ℚ :=
  match report with
  | none => 999999999
  | some r =>
    match r.token with
    | none => 999999999
    | some t =>
      let d := t.decimals.getD 0
      let computed : Option ℚ :=
        match t.supply with
        | some (.num q) => some (q / 10 ^ d)
        | _ => none
      match computed with
      | some c => if 0 < c then c else 1000000000
      | none => 1000000000

/-- One tick of the `priceUsdStable` effect of `MemeScanner`:
`if (typeof priceUsd === 'number' && isFinite(priceUsd)) setPriceUsdStable(priceUsd)`.
The state is the last valid price (`None` before any valid observation). -/
def stepPrice (s : Option ℚ) (t : Option JSNum) : Option ℚ :=
  match t with
  | some (.num q) => some q
  | _ => s

/-- The value the Price card renders: `priceUsdStable ?? priceUsd`. -/
def displayedPrice (s : Option ℚ) (p : Option JSNum) : Option JSNum :=
  match s with
  | some q => some (.num q)
  | none => p

/-- The `pnl` memo of `TradePanel.tsx`:
`if (!currentPrice || !qtyHeld) return 0; return (currentPrice - avgPrice) * qtyHeld`.
JS truthiness makes both `null` and `0` falsy for `currentPrice`. -/
def pnlTP (currentPrice : Option ℚ) (avgPrice qtyHeld : ℚ) : ℚ :=
  match currentPrice with
  | none => 0
  | some p => if p = 0 ∨ qtyHeld = 0 then 0 else (p - avgPrice) * qtyHeld

/-- `effPrice = currentPrice ?? 0` (`TradePanel.tsx`). -/
def effPrice (currentPrice : Option ℚ) : ℚ := currentPrice.getD 0

/-- `effectiveQty = effPrice ? (usd || 0) / effPrice : 0` (`TradePanel.tsx`). -/
def effectiveQty (usd : ℚ) (currentPrice : Option ℚ) : ℚ :=
  if effPrice currentPrice ≠ 0 then usd / effPrice currentPrice else 0

/-- `totalCost = effPrice && effectiveQty ? effPrice * effectiveQty : 0`. -/
def totalCost (usd : ℚ) (currentPrice : Option ℚ) : ℚ :=
  if effPrice currentPrice ≠ 0 ∧ effectiveQty usd currentPrice ≠ 0 then
    effPrice currentPrice * effectiveQty usd currentPrice
  else 0

/-- `grandTotal = totalCost + (totalCost > 0 ? TX_FEE : 0)` with `TX_FEE = 0.35`. -/
def grandTotal (usd : ℚ) (currentPrice : Option ℚ) : ℚ :=
  totalCost usd currentPrice + (if 0 < totalCost usd currentPrice then 7/20 else 0)

/-- `canBuy = !!mint && effPrice > 0 && effectiveQty > 0 && totalCost <= balance`. -/
def canBuy (mint : String) (currentPrice : Option ℚ) (usd balance : ℚ) : Bool :=
  (mint ≠ ("" : String) : Bool) && decide (0 < effPrice currentPrice) &&
    decide (0 < effectiveQty usd currentPrice) && decide (totalCost usd currentPrice ≤ balance)

/-- The whitespace class removed by JS `String.prototype.trim` (space, tab,
LF, VT, FF, CR, NBSP, BOM; further exotic Unicode spaces are omitted as they
do not affect any claim, the same trim appears on both sides of each one). -/
def isJsWhitespace (c : Char) : Bool :=
  (c.toNat == 32) || (c.toNat == 9) || (c.toNat == 10) || (c.toNat == 11) ||
    (c.toNat == 12) || (c.toNat == 13) || (c.toNat == 160) || (c.toNat == 65279)

/-- JS `m.trim()` over an explicit character list. -/
def jsTrim (s : List Char) : List Char :=
  ((s.dropWhile isJsWhitespace).reverse.dropWhile isJsWhitespace).reverse

/-- One character of the class of `BASE58_RE = /^[1-9A-HJ-NP-Za-km-z]+$/`:
code points 49–57 = 1–9, 65–72 = A–H, 74–78 = J–N, 80–90 = P–Z,
97–107 = a–k, 109–122 = m–z. -/
def isBase58Char (c : Char) : Bool :=
  (49 ≤ c.toNat && c.toNat ≤ 57) || (65 ≤ c.toNat && c.toNat ≤ 72) ||
    (74 ≤ c.toNat && c.toNat ≤ 78) || (80 ≤ c.toNat && c.toNat ≤ 90) ||
    (97 ≤ c.toNat && c.toNat ≤ 107) || (109 ≤ c.toNat && c.toNat ≤ 122)

/-- `BASE58_RE.test(s)`: the anchored `[...]+` matches iff `s` is nonempty and
every character is in the class. -/
def base58Test (s : List Char) : Bool := !s.isEmpty && s.all isBase58Char

/-- `isValidMint` (`PortfolioAnalyzer.tsx`):
`s = m.trim(); s.length >= 32 && s.length <= 44 && BASE58_RE.test(s)`. -/
def isValidMint (m : List Char) : Bool :=
  decide (32 ≤ (jsTrim m).length) && decide ((jsTrim m).length ≤ 44) && base58Test (jsTrim m)

/-- The scan button handler `onClick={() => canScan && setSearchedMint(inputMint.trim())}`
with `canScan = isValidMint(inputMint)`: the searched mint that a click sets. -/
def scanTarget (inputMint : List Char) : Option (List Char) :=
  if isValidMint inputMint then some (jsTrim inputMint) else none

/-- Trade side of a `HistoryItem` (`side: 'buy' | 'sell'`). -/
inductive TradeSide where
  | buy
  | sell
deriving DecidableEq, Repr

/-- `HistoryItem` (`App.tsx` / `PortfolioAnalyzer.tsx`).  `price`, `qty`, `value`
are required numbers; `fee` is optional (`Number(h.fee) || 0` makes a missing or
NaN fee count as 0, which `Option.getD 0` captures).  `ts` is an epoch-millisecond
JS number, hence an arbitrary integer here. -/
structure HistoryItem where
  id : String
  ts : ℤ
  side : TradeSide
  mint : String
  name : Option String
  symbol : Option String
  price : ℚ
  qty : ℚ
  value : ℚ
  fee : Option ℚ
  marketCap : Option ℚ
deriving DecidableEq, Repr

/-- `buyCost`: `history.filter(h => h.side === 'buy').reduce((a, h) => a + (Number(h.value) || 0), 0)`. -/
def buyCost (hist : List HistoryItem) : ℚ :=
  (hist.filter (fun h => decide (h.side = TradeSide.buy))).foldl (fun a h => a + h.value) 0

/-- `sellProceeds`: same reduction over the sell side. -/
def sellProceeds (hist : List HistoryItem) : ℚ :=
  (hist.filter (fun h => decide (h.side = TradeSide.sell))).foldl (fun a h => a + h.value) 0

/-- `totalFees`: `history.reduce((a, h) => a + (Number(h.fee) || 0), 0)`. -/
def totalFees (hist : List HistoryItem) : ℚ :=
  hist.foldl (fun a h => a + h.fee.getD 0) 0

/-- `realizedPnL = sellProceeds - buyCost - totalFees` (full history). -/
def realizedPnL (hist : List HistoryItem) : ℚ :=
  sellProceeds hist - buyCost hist - totalFees hist

/-- The timeframe selector of `PortfolioAnalyzer.tsx`:
`'all' | '7d' | '24h' | '12h' | '6h' | '1h'`. -/
inductive Timeframe where
  | all
  | d7
  | h24
  | h12
  | h6
  | h1
deriving DecidableEq, Repr

/-- The `start` switch of `timeframeStats`: fixed offsets from `now`,
`default: return 0` for the `'all'` window. -/
def windowStart (tf : Timeframe) (now : ℤ) : ℤ :=
  match tf with
  | .h1 => now - 3600000
  | .h6 => now - 6 * 3600000
  | .h12 => now - 12 * 3600000
  | .h24 => now - 24 * 3600000
  | .d7 => now - 7 * 24 * 3600000
  | .all => 0

/-- One iteration of the `for (const h of hist)` loop of `timeframeStats`:
entries with `h.ts >= start` add to the (buys, sells, fees) accumulators. -/
def tfStep (start : ℤ) (acc : ℚ × ℚ × ℚ) (h : HistoryItem) : ℚ × ℚ × ℚ :=
  if start ≤ h.ts then
    (acc.1 + (if h.side = TradeSide.buy then h.value else 0),
     acc.2.1 + (if h.side = TradeSide.sell then h.value else 0),
     acc.2.2 + h.fee.getD 0)
  else acc

/-- `timeframeStats` (`PortfolioAnalyzer.tsx`): windowed realized PnL and ROI. -/
def timeframeStats (hist : List HistoryItem) (tf : Timeframe) (now : ℤ) : ℚ × Option ℚ :=
  let start := windowStart tf now
  let acc := hist.foldl (tfStep start) (0, 0, 0)
  let pnl := acc.2.1 - acc.1 - acc.2.2
  (pnl, if 0 < acc.1 then some (pnl / acc.1 * 100) else none)

/-- JS truthiness of an optional string (`!g.name`): undefined and `''` are falsy. -/
def strTruthy : Option String → Bool
  | none => false
  | some s => s ≠ ("" : String)

/-- The per-mint accumulator of `groupedActivity` (`App.tsx`). -/
structure ActGroup where
  mint : String
  name : Option String
  symbol : Option String
  buys : List HistoryItem
  sells : List HistoryItem
  lastTs : ℤ
  totalBuyQty : ℚ
  totalSellQty : ℚ
  lastAction : Option TradeSide

/-- The default group created by `map.get(h.mint) || { ... }`. -/
def newGroup (h : HistoryItem) : ActGroup :=
  { mint := h.mint, name := h.name, symbol := h.symbol, buys := [], sells := [],
    lastTs := h.ts, totalBuyQty := 0, totalSellQty := 0, lastAction := some h.side }

/-- The mutations applied to a group for one history item, in source order:
push to buys/sells, bump `lastTs`, fill missing name/symbol, add quantity
(the `typeof h.qty === 'number'` guard always holds, `qty` being a required
number field), and finally update `lastAction` against the already-bumped
`lastTs` (so it compares `h.ts` with `max(g.lastTs, h.ts)`).  The sequential
mutations touch distinct fields, written here field-parallel. -/
def updGroup (g : ActGroup) (h : HistoryItem) : ActGroup :=
  { mint := g.mint
    buys := if h.side = TradeSide.buy then g.buys ++ [h] else g.buys
    sells := if h.side = TradeSide.buy then g.sells else g.sells ++ [h]
    lastTs := if g.lastTs < h.ts then h.ts else g.lastTs
    name := if !strTruthy g.name && strTruthy h.name then h.name else g.name
    symbol := if !strTruthy g.symbol && strTruthy h.symbol then h.symbol else g.symbol
    totalBuyQty := if h.side = TradeSide.buy then g.totalBuyQty + h.qty else g.totalBuyQty
    totalSellQty := if h.side = TradeSide.buy then g.totalSellQty else g.totalSellQty + h.qty
    lastAction :=
      if (if g.lastTs < h.ts then h.ts else g.lastTs) ≤ h.ts then some h.side
      else g.lastAction }

/-- One loop iteration over the insertion-ordered group list (a JS `Map`
preserves insertion order; `map.set` on an existing key updates in place). -/
def insertHist (gs : List ActGroup) (h : HistoryItem) : List ActGroup :=
  if gs.any (fun g => decide (g.mint = h.mint)) then
    gs.map (fun g => if g.mint = h.mint then updGroup g h else g)
  else gs ++ [updGroup (newGroup h) h]

/-- `g.buys.slice().sort((a,b) => b.ts - a.ts)[0]`: an entry of maximal `ts`
(the source's engine-dependent unstable sort returns some maximal entry;
this fold keeps the first maximal one). -/
def maxByTs (l : List HistoryItem) : Option HistoryItem :=
  l.foldl (fun acc x => match acc with
    | none => some x
    | some y => if y.ts < x.ts then some x else acc) none

/-- The derived per-token summary produced by `groupedActivity`. -/
structure ActItem where
  mint : String
  name : Option String
  symbol : Option String
  lastTs : ℤ
  totalBuyQty : ℚ
  totalSellQty : ℚ
  lastAction : Option TradeSide
  buyCost : ℚ
  sellProceeds : ℚ
  fees : ℚ
  pnl : ℚ
  pnlPct : Option ℚ
  buyWeightedPrice : Option ℚ
  sellWeightedPrice : Option ℚ
  lastBuy : Option HistoryItem
  lastSell : Option HistoryItem

/-- The per-group computation of `groupedActivity`'s `map` step. -/
def mkItem (g : ActGroup) : ActItem :=
  let bCost := g.buys.foldl (fun a x => a + x.value) 0
  let sProc := g.sells.foldl (fun a x => a + x.value) 0
  let fees := (g.buys ++ g.sells).foldl (fun a x => a + x.fee.getD 0) 0
  let pnl := sProc - bCost - fees
  let bq := g.buys.foldl (fun a x => a + x.qty) 0
  let sq := g.sells.foldl (fun a x => a + x.qty) 0
  { mint := g.mint, name := g.name, symbol := g.symbol, lastTs := g.lastTs,
    totalBuyQty := g.totalBuyQty, totalSellQty := g.totalSellQty, lastAction := g.lastAction,
    buyCost := bCost, sellProceeds := sProc, fees := fees, pnl := pnl,
    pnlPct := if 0 < bCost then some (pnl / bCost * 100) else none,
    buyWeightedPrice :=
      if bq ≤ 0 then none
      else some ((g.buys.foldl (fun a x => a + x.price * x.qty) 0) / bq),
    sellWeightedPrice :=
      if sq ≤ 0 then none
      else some ((g.sells.foldl (fun a x => a + x.price * x.qty) 0) / sq),
    lastBuy := maxByTs g.buys, lastSell := maxByTs g.sells }

/-- Insert into a list sorted descending by `lastTs` (models
`items.sort((a,b) => b.lastTs - a.lastTs)`). -/
def insertDesc (x : ActItem) : List ActItem → List ActItem
  | [] => [x]
  | y :: ys => if y.lastTs < x.lastTs then x :: y :: ys else y :: insertDesc x ys

/-- `groupedActivity` (`App.tsx`): group history by mint in insertion order,
derive per-token summaries, sort by latest activity descending. -/
def groupedActivity (hist : List HistoryItem) : List ActItem :=
  ((hist.foldl insertHist []).map mkItem).foldr insertDesc []

/-- The history of the activity-aggregation example: one buy of qty 10 at
price 2 (value 20) and one sell of qty 10 at price 3 (value 30), zero fees. -/
def exHist : List HistoryItem :=
  [{ id := ("b1" : String), ts := 1, side := .buy, mint := ("M" : String), name := none,
     symbol := none, price := 2, qty := 10, value := 20, fee := some 0, marketCap := none },
   { id := ("s1" : String), ts := 2, side := .sell, mint := ("M" : String), name := none,
     symbol := none, price := 3, qty := 10, value := 30, fee := some 0, marketCap := none }]

/-- A history whose single entry has a negative (pre-1970) timestamp. -/
def negTsHist : List HistoryItem :=
  [{ id := ("x" : String), ts := -1, side := .sell, mint := ("M" : String), name := none,
     symbol := none, price := 10, qty := 1, value := 10, fee := none, marketCap := none }]

/-- Witness history for the windowed-PnL equivalence: nonnegative timestamps. -/
def wHist : List HistoryItem :=
  [{ id := ("w1" : String), ts := 0, side := .buy, mint := ("M" : String), name := none,
     symbol := none, price := 1, qty := 4, value := 4, fee := some 1, marketCap := none },
   { id := ("w2" : String), ts := 5, side := .sell, mint := ("M" : String), name := none,
     symbol := none, price := 2, qty := 4, value := 8, fee := none, marketCap := none }]

/-! Theorems.  Each claim of the specification is settled below; helper
lemmas are shared and carry no claim by themselves. -/

lemma ageMcRule_cases (a mc : Option JSNum) :
    (ageMcRule a mc = (-10, ["age>50m & mc<20k"]) ∧
      ((∃ av, a = some av ∧ jsGt av (.num 50) = true) ∧ (∃ q, mc = some (.num q) ∧ q < 20000))) ∨
    (ageMcRule a mc = (0, []) ∧
      ¬ ((∃ av, a = some av ∧ jsGt av (.num 50) = true) ∧ (∃ q, mc = some (.num q) ∧ q < 20000))) := by
  rcases a with _ | av
  · right
    simp [ageMcRule]
  · rcases mc with _ | mv
    · right
      simp only [ageMcRule]
      split_ifs <;> simp_all
    · simp only [ageMcRule]
      split_ifs with h1 h2
      · left
        rcases mv with q | _ | _ | _ <;> simp_all [JSNum.isFinite, jsLt]
      · right
        rcases mv with q | _ | _ | _ <;> simp_all [JSNum.isFinite, jsLt]
      · right
        simp_all

lemma age_reason_notin_volRule (v : Option JSNum) : "age>50m & mc<20k" ∉ (volRule v).2 := by
  rcases v with _ | v
  · simp [volRule]
  · simp only [volRule]
    split_ifs <;> simp_all

lemma age_reason_notin_lpRule (v : Option JSNum) : "age>50m & mc<20k" ∉ (lpRule v).2 := by
  rcases v with _ | v
  · simp [lpRule]
  · simp only [lpRule]
    split_ifs <;> simp_all

lemma age_reason_notin_txRule (v : Option JSNum) : "age>50m & mc<20k" ∉ (txRule v).2 := by
  rcases v with _ | v
  · simp [txRule]
  · simp only [txRule]
    split_ifs <;> simp_all

lemma age_reason_notin_priceChRule (v : Option JSNum) : "age>50m & mc<20k" ∉ (priceChRule v).2 := by
  rcases v with _ | v
  · simp [priceChRule]
  · simp only [priceChRule]
    split_ifs <;> simp_all

lemma age_reason_notin_dexRule (l : Option DexLabel) : "age>50m & mc<20k" ∉ (dexRule l).2 := by
  simp only [dexRule]
  split_ifs <;> simp_all

/-- C1: the health scorer is a pure function, hence deterministic; its score is
the baseline 50 plus the six documented additive adjustments; and its label is
SAFE exactly when the score is `>= 70`, UNSAFE exactly when it is `<= 40`, and
RISKY exactly in between. -/
theorem healthVerdict_deterministic_thresholds (p : HealthParams) :
    computeHealthVerdict p = computeHealthVerdict p ∧
    (healthScoreReasons p).1 =
      50 + (volRule p.volToMc).1 + (lpRule p.lpLockedPct).1 + (txRule p.tx24).1 +
        (priceChRule p.priceCh24).1 + (dexRule p.dexLabel).1 + (ageMcRule p.ageMin p.marketCap).1 ∧
    ((computeHealthVerdict p).label = .SAFE ↔ 70 ≤ (healthScoreReasons p).1) ∧
    ((computeHealthVerdict p).label = .UNSAFE ↔ (healthScoreReasons p).1 ≤ 40) ∧
    ((computeHealthVerdict p).label = .RISKY ↔
      40 < (healthScoreReasons p).1 ∧ (healthScoreReasons p).1 < 70) := by
  refine ⟨rfl, rfl, ?_, ?_, ?_⟩ <;>
  · simp only [computeHealthVerdict]
    split_ifs <;> simp_all <;> omega

/-- C2 counterexample: with `ageMin = +Infinity` (present but not finite) and
`marketCap = 10000`, the compound rule fires anyway: the reason is recorded and
10 points are deducted (score 50 − 10), though the claim says a non-finite
`ageMin` skips the rule. -/
theorem healthAgeRule_cex :
    infAgeParams.ageMin = some JSNum.posInf ∧
    JSNum.posInf.isFinite = false ∧
    (computeHealthVerdict infAgeParams).reasons = ["age>50m & mc<20k"] ∧
    (healthScoreReasons infAgeParams).1 = 50 - 10 := by
  refine ⟨rfl, rfl, ?_, ?_⟩ <;>
  · norm_num [computeHealthVerdict, healthScoreReasons, infAgeParams, volRule, lpRule,
      txRule, priceChRule, dexRule, ageMcRule, jsGe, jsLe, jsGt, jsLt, JSNum.isFinite]
    decide

/-- C2 (amended): the compound rule deducts 10 points with reason
"age>50m & mc<20k" exactly when `ageMin` is present with `ageMin > 50` under JS
comparison (finiteness of `ageMin` is not checked, so `+Infinity` triggers it;
NaN does not) and `marketCap` is present, finite and `< 20000`; otherwise the
rule contributes nothing to the score or the reasons list. -/
theorem healthAgeRule_amended (p : HealthParams) :
    ("age>50m & mc<20k" ∈ (computeHealthVerdict p).reasons ↔ ageRuleTriggered p) ∧
    (ageRuleTriggered p → (healthScoreReasons p).1 = preAgeScore p - 10) ∧
    (¬ ageRuleTriggered p → (healthScoreReasons p).1 = preAgeScore p) := by
  have hr : (computeHealthVerdict p).reasons = (healthScoreReasons p).2 := rfl
  have hs : (healthScoreReasons p).1 = preAgeScore p + (ageMcRule p.ageMin p.marketCap).1 := rfl
  have h2 : (healthScoreReasons p).2 =
      (volRule p.volToMc).2 ++ (lpRule p.lpLockedPct).2 ++ (txRule p.tx24).2 ++
        (priceChRule p.priceCh24).2 ++ (dexRule p.dexLabel).2 ++ (ageMcRule p.ageMin p.marketCap).2 := rfl
  rcases ageMcRule_cases p.ageMin p.marketCap with ⟨heq, hc⟩ | ⟨heq, hc⟩
  · refine ⟨?_, fun _ => ?_, fun hn => absurd hc hn⟩
    · rw [hr, h2, heq]
      simp [List.mem_append, age_reason_notin_volRule, age_reason_notin_lpRule,
        age_reason_notin_txRule, age_reason_notin_priceChRule, age_reason_notin_dexRule]
      exact hc
    · rw [hs, heq]
      ring
  · refine ⟨?_, fun ht => absurd ht hc, fun _ => ?_⟩
    · rw [hr, h2, heq]
      simp [List.mem_append, age_reason_notin_volRule, age_reason_notin_lpRule,
        age_reason_notin_txRule, age_reason_notin_priceChRule, age_reason_notin_dexRule]
      exact hc
    · rw [hs, heq]
      ring

/-- C2 witness: at finite `ageMin = 60` and `marketCap = 10000` the amended
rule fires and deducts exactly 10. -/
theorem healthAgeRule_amended_witness :
    (healthScoreReasons wAgeParams).1 = preAgeScore wAgeParams - 10 :=
  (healthAgeRule_amended wAgeParams).2.1
    ⟨⟨.num 60, rfl, by decide⟩, ⟨10000, rfl, by norm_num⟩⟩

/-- C3: on volToMc=0.1, lpLockedPct=10, tx24=10, priceCh24=500,
riskLabel=danger, ageMin=60, marketCap=10000 the scorer computes
50−20−15−5−10−10−10 = −20 and returns UNSAFE. -/
theorem healthVerdict_spec_example :
    (healthScoreReasons exampleParams).1 = 50 - 20 - 15 - 5 - 10 - 10 - 10 ∧
    (computeHealthVerdict exampleParams).label = .UNSAFE := by
  constructor <;>
  · norm_num [computeHealthVerdict, healthScoreReasons, exampleParams, volRule, lpRule,
      txRule, priceChRule, dexRule, ageMcRule, jsGe, jsLe, jsGt, jsLt, JSNum.isFinite]
    decide

/-- C4 counterexample: when the report (or its token object) is missing — so
the source supply is certainly missing — the derivation returns 999,999,999,
not the claimed universal fallback 1,000,000,000. -/
theorem supplyDerivation_cex :
    supplyOf none = 999999999 ∧ (999999999 : ℚ) ≠ 1000000000 ∧
    supplyOf (some ⟨none⟩) = 999999999 := by
  refine ⟨rfl, by norm_num, rfl⟩

/-- C4 (amended): with a present token the derivation returns
`rawSupply / 10^decimals` when the raw supply is a finite number and the
quotient is positive, and the fallback 1,000,000,000 when the raw supply is
missing or not finite or the quotient is not positive; but when the report or
its token object is missing it returns 999,999,999 instead. -/
theorem supplyDerivation_amended (t : RugToken) :
    supplyOf none = 999999999 ∧
    supplyOf (some ⟨none⟩) = 999999999 ∧
    (∀ q : ℚ, t.supply = some (.num q) → 0 < q / 10 ^ t.decimals.getD 0 →
      supplyOf (some ⟨some t⟩) = q / 10 ^ t.decimals.getD 0) ∧
    (∀ q : ℚ, t.supply = some (.num q) → ¬ 0 < q / 10 ^ t.decimals.getD 0 →
      supplyOf (some ⟨some t⟩) = 1000000000) ∧
    ((∀ q : ℚ, t.supply ≠ some (.num q)) → supplyOf (some ⟨some t⟩) = 1000000000) := by
  refine ⟨rfl, rfl, ?_, ?_, ?_⟩
  · intro q hq hpos
    simp [supplyOf, hq, hpos]
  · intro q hq hpos
    simp [supplyOf, hq, hpos]
  · intro hne
    rcases hs : t.supply with _ | v
    · simp [supplyOf, hs]
    · rcases v with q | _ | _ | _
      · exact absurd hs (hne q)
      all_goals simp [supplyOf, hs]

/-- C4 witness: raw supply 5 with 2 decimals yields 5 / 10². -/
theorem supplyDerivation_amended_witness :
    supplyOf (some ⟨some ⟨some (.num 5), some 2⟩⟩) = 5 / 10 ^ 2 :=
  (supplyDerivation_amended ⟨some (.num 5), some 2⟩).2.2.1 5 rfl (by norm_num)

lemma stepPrice_isSome (s : Option ℚ) (t : Option JSNum) (h : s.isSome = true) :
    (stepPrice s t).isSome = true := by
  rcases t with _ | v
  · simpa [stepPrice] using h
  · rcases v with q | _ | _ | _ <;> simp [stepPrice, h]

/-- C5: the sticky-price state machine never loses a held value: a held last
valid price survives any tick sequence, a null tick (and any non-finite
sample) leaves the state unchanged, and the two-tick simulation [5.0, null]
leaves the displayed value at 5.0. -/
theorem priceSticky (ticks : List (Option JSNum)) (s : Option ℚ) (h : s.isSome = true) :
    (ticks.foldl stepPrice s).isSome = true ∧
    stepPrice s none = s ∧
    (∀ v : JSNum, v.isFinite = false → stepPrice s (some v) = s) ∧
    [some (JSNum.num 5), none].foldl stepPrice none = some 5 ∧
    displayedPrice ([some (JSNum.num 5), none].foldl stepPrice none) none = some (JSNum.num 5) := by
  refine ⟨?_, rfl, ?_, rfl, rfl⟩
  · induction ticks generalizing s with
    | nil => exact h
    | cons t ts ih => exact ih _ (stepPrice_isSome s t h)
  · intro v hv
    rcases v with q | _ | _ | _
    · simp [JSNum.isFinite] at hv
    all_goals rfl

/-- C5 witness: a held price 5 survives a null tick. -/
theorem priceSticky_witness :
    (([none] : List (Option JSNum)).foldl stepPrice (some 5)).isSome = true :=
  (priceSticky [none] (some 5) rfl).1

/-- C6: for the single token with one buy (qty 10 at price 2, value 20) and one
sell (qty 10 at price 3, value 30), zero fees, the activity aggregation yields
pnl 10, pnl percentage 50, weighted buy price 2 and weighted sell price 3. -/
theorem groupedActivity_example :
    (groupedActivity exHist).map
      (fun it => (it.pnl, it.pnlPct, it.buyWeightedPrice, it.sellWeightedPrice)) =
      [(10, some 50, some 2, some 3)] := by
  norm_num +decide [groupedActivity, exHist, insertHist, updGroup, newGroup, mkItem, maxByTs,
    insertDesc, strTruthy]

lemma foldl_add_init (g : HistoryItem → ℚ) :
    ∀ (l : List HistoryItem) (a : ℚ),
      l.foldl (fun acc h => acc + g h) a = a + l.foldl (fun acc h => acc + g h) 0
  | [], a => by simp
  | x :: t, a => by
    simp only [List.foldl_cons]
    rw [foldl_add_init g t (a + g x), foldl_add_init g t (0 + g x)]
    ring

lemma buyCost_cons (x : HistoryItem) (t : List HistoryItem) :
    buyCost (x :: t) = (if x.side = TradeSide.buy then x.value else 0) + buyCost t := by
  unfold buyCost
  by_cases hb : x.side = TradeSide.buy
  · have hf : List.filter (fun h => decide (h.side = TradeSide.buy)) (x :: t) =
        x :: List.filter (fun h => decide (h.side = TradeSide.buy)) t := by
      simp [List.filter_cons, hb]
    rw [hf, List.foldl_cons, foldl_add_init, if_pos hb]
    simp
  · have hf : List.filter (fun h => decide (h.side = TradeSide.buy)) (x :: t) =
        List.filter (fun h => decide (h.side = TradeSide.buy)) t := by
      simp [List.filter_cons, hb]
    rw [hf, if_neg hb]
    simp

lemma sellProceeds_cons (x : HistoryItem) (t : List HistoryItem) :
    sellProceeds (x :: t) = (if x.side = TradeSide.sell then x.value else 0) + sellProceeds t := by
  unfold sellProceeds
  by_cases hb : x.side = TradeSide.sell
  · have hf : List.filter (fun h => decide (h.side = TradeSide.sell)) (x :: t) =
        x :: List.filter (fun h => decide (h.side = TradeSide.sell)) t := by
      simp [List.filter_cons, hb]
    rw [hf, List.foldl_cons, foldl_add_init, if_pos hb]
    simp
  · have hf : List.filter (fun h => decide (h.side = TradeSide.sell)) (x :: t) =
        List.filter (fun h => decide (h.side = TradeSide.sell)) t := by
      simp [List.filter_cons, hb]
    rw [hf, if_neg hb]
    simp

lemma totalFees_cons (x : HistoryItem) (t : List HistoryItem) :
    totalFees (x :: t) = x.fee.getD 0 + totalFees t := by
  unfold totalFees
  simp only [List.foldl_cons]
  rw [foldl_add_init]
  simp

lemma tfFold_all (start : ℤ) :
    ∀ (hist : List HistoryItem), (∀ x ∈ hist, start ≤ x.ts) → ∀ (b s f : ℚ),
      hist.foldl (tfStep start) (b, s, f) =
        (b + buyCost hist, s + sellProceeds hist, f + totalFees hist)
  | [], _, b, s, f => by
    simp [buyCost, sellProceeds, totalFees]
  | x :: t, hall, b, s, f => by
    have hx : start ≤ x.ts := hall x (List.mem_cons_self x t)
    have ht : ∀ y ∈ t, start ≤ y.ts := fun y hy => hall y (List.mem_cons_of_mem x hy)
    simp only [List.foldl_cons, tfStep, if_pos hx]
    rw [tfFold_all start t ht]
    rw [buyCost_cons, sellProceeds_cons, totalFees_cons]
    refine Prod.ext ?_ (Prod.ext ?_ ?_) <;> simp <;> ring

/-- C7 counterexample: for a history whose single sell has timestamp −1
(a pre-1970 epoch-millisecond value), the `windowStart = 0` aggregation
excludes the entry (`h.ts >= start` fails) and reports pnl 0, while the
independently computed full-history realized PnL is 10. -/
theorem timeframeAll_cex :
    (timeframeStats negTsHist .all 0).1 = 0 ∧ realizedPnL negTsHist = 10 ∧
    (timeframeStats negTsHist .all 0).1 ≠ realizedPnL negTsHist := by
  refine ⟨?_, ?_, ?_⟩ <;>
    norm_num +decide [timeframeStats, windowStart, tfStep, realizedPnL, buyCost,
      sellProceeds, totalFees, negTsHist]

/-- C7 (amended): for every history all of whose timestamps are nonnegative —
which `Date.now()`-stamped trades always are — the timeframe aggregation with
the unbounded `'all'` window (`windowStart = 0`) equals the full-history
realized PnL `sum(sell.value) − sum(buy.value) − sum(fee)`. -/
theorem timeframeAll_eq_realized (hist : List HistoryItem) (now : ℤ)
    (h : ∀ x ∈ hist, 0 ≤ x.ts) :
    (timeframeStats hist .all now).1 = realizedPnL hist := by
  have hf := tfFold_all 0 hist h 0 0 0
  simp only [timeframeStats, windowStart, hf, realizedPnL]
  ring

/-- C7 witness: a two-trade history with timestamps 0 and 5. -/
theorem timeframeAll_eq_realized_witness :
    (timeframeStats wHist .all 7).1 = realizedPnL wHist :=
  timeframeAll_eq_realized wHist 7 (by decide)

/-- C8 counterexample: at currentPrice = 0 (a known, non-null price), average
entry 2 and quantity 5 the position PnL computation returns 0 — JS truthiness
treats price 0 like null — while the claimed formula gives (0−2)·5 = −10 ≠ 0,
and the claimed "returns 0 exactly when qty = 0 or price null" does not hold
(here qty = 5 ≠ 0 and the price is not null). -/
theorem positionPnl_cex :
    pnlTP (some 0) 2 5 = 0 ∧ ((0 : ℚ) - 2) * 5 ≠ 0 ∧
    some (0 : ℚ) ≠ (none : Option ℚ) ∧ (5 : ℚ) ≠ 0 := by
  refine ⟨by simp [pnlTP], by norm_num, by simp, by norm_num⟩

/-- C8 (amended): the position PnL returns 0 when the quantity is 0 or the
current price is null or 0 (JS truthiness), and returns
`(currentPrice − averageEntryPrice) * quantityHeld` whenever the current price
is a nonzero number and the quantity is nonzero. -/
theorem positionPnl_amended (cp : Option ℚ) (avg qty : ℚ) :
    (cp = none ∨ cp = some 0 ∨ qty = 0 → pnlTP cp avg qty = 0) ∧
    (∀ p, cp = some p → p ≠ 0 → qty ≠ 0 → pnlTP cp avg qty = (p - avg) * qty) := by
  constructor
  · rintro (rfl | rfl | rfl)
    · rfl
    · simp [pnlTP]
    · rcases cp with _ | p
      · rfl
      · simp [pnlTP]
  · rintro p rfl hp hq
    simp [pnlTP, hp, hq]

/-- C8 witness: price 6, average 2, quantity 3 gives (6−2)·3. -/
theorem positionPnl_amended_witness :
    pnlTP (some 6) 2 3 = ((6 : ℚ) - 2) * 3 :=
  (positionPnl_amended (some 6) 2 3).2 6 rfl (by norm_num) (by norm_num)

/-- C9: a token-address string passes `isValidMint` iff its whitespace-trimmed
form has length between 32 and 44 and consists only of Base58 characters
(digits 1–9 and ASCII letters excluding O, I, l — code point 48 is the digit
0, 79 is O, 73 is I, 108 is l); and the scan action is initiated exactly for
strings passing the predicate. -/
theorem isValidMint_spec (m : List Char) :
    (isValidMint m = true ↔
      32 ≤ (jsTrim m).length ∧ (jsTrim m).length ≤ 44 ∧
        ∀ c ∈ jsTrim m,
          (49 ≤ c.toNat ∧ c.toNat ≤ 57) ∨
          (((65 ≤ c.toNat ∧ c.toNat ≤ 90) ∨ (97 ≤ c.toNat ∧ c.toNat ≤ 122)) ∧
            c.toNat ≠ 48 ∧ c.toNat ≠ 79 ∧ c.toNat ≠ 73 ∧ c.toNat ≠ 108)) ∧
    (scanTarget m ≠ none ↔ isValidMint m = true) := by
  constructor
  · simp only [isValidMint, base58Test, Bool.and_eq_true, decide_eq_true_eq,
      List.all_eq_true, Bool.not_eq_true']
    constructor
    · rintro ⟨⟨h1, h2⟩, _, hall⟩
      refine ⟨h1, h2, fun c hc => ?_⟩
      have hb := hall c hc
      simp only [isBase58Char, Bool.or_eq_true, Bool.and_eq_true, decide_eq_true_eq] at hb
      omega
    · rintro ⟨h1, h2, hall⟩
      have hne : (jsTrim m).isEmpty = false := by
        cases hjt : jsTrim m with
        | nil => rw [hjt] at h1; simp at h1
        | cons a l => simp
      refine ⟨⟨h1, h2⟩, hne, fun c hc => ?_⟩
      have hb := hall c hc
      simp only [isBase58Char, Bool.or_eq_true, Bool.and_eq_true, decide_eq_true_eq]
      omega
  · simp only [scanTarget]
    split_ifs with h <;> simp [h]

/-- C10: the Buy action is enabled iff the mint is nonempty, the effective
price and quantity are positive and the pre-fee cost `price * quantity` is at
most the balance; the flat 0.35 fee in the displayed grand total is excluded
from the check, so at price 1, 10 spent and balance 10 the buy is enabled
while the grand total 10.35 exceeds the balance. -/
theorem canBuy_spec (mint : String) (cp : Option ℚ) (usd bal : ℚ) :
    (canBuy mint cp usd bal = true ↔
      mint ≠ ("" : String) ∧ 0 < effPrice cp ∧ 0 < effectiveQty usd cp ∧
        effPrice cp * effectiveQty usd cp ≤ bal) ∧
    canBuy ("A" : String) (some 1) 10 10 = true ∧
    10 < grandTotal 10 (some 1) := by
  refine ⟨?_, ?_, ?_⟩
  · simp only [canBuy, Bool.and_eq_true, decide_eq_true_eq]
    constructor
    · rintro ⟨⟨⟨hm, hp⟩, hq⟩, hc⟩
      refine ⟨hm, hp, hq, ?_⟩
      rwa [totalCost, if_pos ⟨ne_of_gt hp, ne_of_gt hq⟩] at hc
    · rintro ⟨hm, hp, hq, hc⟩
      refine ⟨⟨⟨hm, hp⟩, hq⟩, ?_⟩
      rwa [totalCost, if_pos ⟨ne_of_gt hp, ne_of_gt hq⟩]
  · norm_num [canBuy, effPrice, effectiveQty, totalCost]
    decide
  · norm_num [grandTotal, totalCost, effPrice, effectiveQty]
